import Mathlib

/-!
# Verification of the workshop notebooks

Shallow embedding of the two notebooks of the repository
(`02_automl/02_Train_Reviews_AutoPilot.ipynb` and
`06_train/02_Train_Reviews_XGBoost_BuiltIn.ipynb`) and proofs about the
embedded operations: the three AutoPilot status-polling cells, the artifact
lookup, the endpoint invocations, `load_dataset`, and the prediction
thresholding of the XGBoost notebook.

Conventions: Python strings are Lean `String`s; the bytes of an HTTP response
body are modelled by the text they decode to; a `dict` lookup that can raise
`KeyError` returns `Except` with the missing key as the error; the unbounded
`while` loops are modelled by a fuel-indexed step function (`none` = the loop
is still running after `fuel` iterations).
-/

namespace Workshop

/-! ## Python string primitives -/

/-- `leadsWith n h` is true when the character list `n` is an initial segment
of `h` (the primitive underneath Python's substring test). -/
def leadsWith : List Char → List Char → Bool
  | [], _ => true
  | _ :: _, [] => false
  | a :: as, b :: bs => a == b && leadsWith as bs

/-- `occursIn n h` is true when `n` occurs contiguously inside `h`. -/
def occursIn (n : List Char) : List Char → Bool
  | [] => leadsWith n []
  | b :: bs => leadsWith n (b :: bs) || occursIn n bs

/-- Python's `needle in haystack` for two strings: substring containment.
This is the semantics of the notebooks' `job_status in ('InProgress')`,
because `('InProgress')` is a parenthesized string, not a tuple. -/
def pyIn (needle haystack : String) : Bool :=
  occursIn needle.toList haystack.toList

/-- Python's `str.strip()`: remove leading and trailing whitespace. -/
def pyStrip (s : String) : String :=
  String.mk (((s.toList.dropWhile Char.isWhitespace).reverse.dropWhile
    Char.isWhitespace).reverse)

/-- Python's `str.rstrip(chars)`: remove trailing characters that belong to
the character set `chars` (not the suffix `chars`). -/
def pyRstripSet (s : String) (chars : String) : String :=
  String.mk ((s.toList.reverse.dropWhile (fun c => chars.toList.contains c)).reverse)

/-! ## The AutoPilot polling cells

Embedding of the three polling cells of `02_Train_Reviews_AutoPilot.ipynb`
(targets `AnalyzingData`, `FeatureEngineering`, `ModelTuning`).  Each cell is

```
job = sm.describe_auto_ml_job(AutoMLJobName=auto_ml_job_name)
job_status = job['AutoMLJobStatus']
job_sec_status = job['AutoMLJobSecondaryStatus']
print(job_status)            # only in the FeatureEngineering / ModelTuning cells
print(job_sec_status)        # only in the FeatureEngineering / ModelTuning cells
if job_status not in ('Stopped', 'Failed'):
    while job_status in ('InProgress') and job_sec_status in (TARGET):
        job = sm.describe_auto_ml_job(AutoMLJobName=auto_ml_job_name)
        job_status = job['AutoMLJobStatus']
        job_sec_status = job['AutoMLJobSecondaryStatus']
        print(job_status, job_sec_status)
        sleep(30)
    print(MESSAGE)
print(job)
```

The sequence of service responses is a `stream : Nat → JobDesc`; `stream 0`
is the cell's initial `describe_auto_ml_job` and `stream (k+1)` the describe
of loop iteration `k`. -/

/-- The two status fields of a `describe_auto_ml_job` response that the
polling cells read. -/
structure JobDesc where
  status : String
  secStatus : String
deriving DecidableEq, Repr

/-- Observable actions of a polling cell, in program order. -/
inductive Act where
  /-- one `sm.describe_auto_ml_job` call -/
  | describe
  /-- `print(job_status)` or `print(job_sec_status)` before the guard -/
  | printStr (s : String)
  /-- the in-loop `print(job_status, job_sec_status)` -/
  | printStat (s t : String)
  /-- the completion message `print` after the loop -/
  | printMsg (s : String)
  /-- the final `print(job)` -/
  | printJob (j : JobDesc)
  /-- `sleep(n)` of `n` seconds -/
  | sleep (n : Nat)
deriving DecidableEq, Repr

/-- The tuple of the guard `if job_status not in ('Stopped', 'Failed'):`. -/
def guardLiterals : List String := ["Stopped", "Failed"]

/-- The `while` condition
`job_status in ('InProgress') and job_sec_status in (target)`.
Both operands of `in` are parenthesized strings, so both tests are Python
substring containment. -/
def loopCond (target : String) (j : JobDesc) : Bool :=
  pyIn j.status "InProgress" && pyIn j.secStatus target

/-- The actions of loop iteration `k` (fetching `stream (k+1)`): one describe
call, the in-loop print, and a fixed 30-second sleep. -/
def iterActs (stream : Nat → JobDesc) (k : Nat) : List Act :=
  [Act.describe,
   Act.printStat (stream (k + 1)).status (stream (k + 1)).secStatus,
   Act.sleep 30]

/-- The `while` loop, run with `fuel` iterations allowed, the current response
being `stream i`.  Returns `some (n, tr)` when the loop exits with `stream n`
as the last queried description, having emitted the actions `tr`; returns
`none` when the loop is still running after `fuel` iterations. -/
def runPoll (target : String) (stream : Nat → JobDesc) :
    Nat → Nat → Option (Nat × List Act)
  | 0, i => if loopCond target (stream i) then none else some (i, [])
  | f + 1, i =>
      if loopCond target (stream i) then
        match runPoll target stream f (i + 1) with
        | none => none
        | some (n, tr) => some (n, iterActs stream i ++ tr)
      else some (i, [])

/-- The `print(job_status)` / `print(job_sec_status)` lines that the
FeatureEngineering and ModelTuning cells run before their guard (`printPre`
true); the AnalyzingData cell has none (`printPre` false). -/
def cellPre (printPre : Bool) (j0 : JobDesc) : List Act :=
  if printPre then [Act.printStr j0.status, Act.printStr j0.secStatus] else []

/-- A whole polling cell: the initial describe, the pre-guard prints, the
guard `if job_status not in ('Stopped', 'Failed'):` (tuple membership, i.e.
equality), the `while` loop, its completion message, and the final
`print(job)`. -/
def pollCell (printPre : Bool) (target msg : String) (stream : Nat → JobDesc)
    (fuel : Nat) : Option (List Act) :=
  if (stream 0).status ∈ guardLiterals then
    some (Act.describe :: (cellPre printPre (stream 0) ++ [Act.printJob (stream 0)]))
  else
    match runPoll target stream fuel 0 with
    | none => none
    | some (n, tr) =>
        some (Act.describe :: (cellPre printPre (stream 0) ++
          (tr ++ [Act.printMsg msg, Act.printJob (stream n)])))

/-- The AnalyzingData polling cell (it starts with `time.sleep(3)` and does
not print the statuses before its guard). -/
def analyzingCell (stream : Nat → JobDesc) (fuel : Nat) : Option (List Act) :=
  (pollCell false "AnalyzingData" "Data analysis complete" stream fuel).map
    (fun acts => Act.sleep 3 :: acts)

/-- The FeatureEngineering polling cell. -/
def featureCell (stream : Nat → JobDesc) (fuel : Nat) : Option (List Act) :=
  pollCell true "FeatureEngineering" "Feature engineering complete" stream fuel

/-- The ModelTuning polling cell. -/
def tuningCell (stream : Nat → JobDesc) (fuel : Nat) : Option (List Act) :=
  pollCell true "ModelTuning" "Model tuning complete" stream fuel

/-! ## The status literals the notebooks compare against -/

/-- The status literals one polling cell compares the service's status strings
against: the guard tuple and the two operands of the `while` condition. -/
def cellLiterals (target : String) : List String :=
  guardLiterals ++ ["InProgress", target]

/-- All job-status and secondary-status literals that the notebooks' control
flow compares the service's status strings against (the three polling cells;
the XGBoost notebook compares no status strings). -/
def allStatusLiterals : List String :=
  cellLiterals "AnalyzingData" ++ cellLiterals "FeatureEngineering" ++
    cellLiterals "ModelTuning"

/-- Modelled from the spec: the spec's job status/sub-status enum
"queued/analyzing/feature-engineering/tuning/failed/stopped/completed"
(section 3, DATA MODEL); the enum itself appears nowhere in the code. -/
def specStatusEnum : List String :=
  ["queued", "analyzing", "feature-engineering", "tuning",
   "failed", "stopped", "completed"]

/-- Modelled from the spec: the spec writes the service's CamelCase status
strings as lowercase hyphenated words; this renders each service status
string as the spec's word for it (service statuses without a spec word are
left unchanged). -/
def specWordFor : String → String
  | "Starting" => "queued"
  | "AnalyzingData" => "analyzing"
  | "FeatureEngineering" => "feature-engineering"
  | "ModelTuning" => "tuning"
  | "Failed" => "failed"
  | "Stopped" => "stopped"
  | "Completed" => "completed"
  | s => s

/-! ## The artifact lookup (`generated_resources` cell)

```
generated_resources = job['AutoMLJobArtifacts']['DataExplorationNotebookLocation']
    .rstrip('notebooks/SageMakerAutopilotDataExplorationNotebook.ipynb')
```

A describe response is a string-keyed Python dict; a missing key raises
`KeyError(key)`, modelled as `Except.error key`.  The cell contains no
`try`/`except`, so the error value is the cell's result: nothing catches it
and no fallback is produced. -/

/-- A Python value as far as this cell observes it: a string or a dict. -/
inductive PyVal where
  | str (s : String)
  | dict (entries : List (String × PyVal))

/-- `v[k]` on a Python value: the first entry of the dict with key `k`,
`KeyError k` when the key is absent (or `v` is not a dict). -/
def pyGet (v : PyVal) (k : String) : Except String PyVal :=
  match v with
  | PyVal.dict es =>
      match es.find? (fun p => p.1 == k) with
      | some p => Except.ok p.2
      | none => Except.error k
  | PyVal.str _ => Except.error k

/-- The argument of the `.rstrip(...)` call. -/
def nbRstripChars : String :=
  "notebooks/SageMakerAutopilotDataExplorationNotebook.ipynb"

/-- The `generated_resources` assignment. -/
def generated_resources (job : PyVal) : Except String String :=
  match pyGet job "AutoMLJobArtifacts" with
  | Except.error e => Except.error e
  | Except.ok arts =>
      match pyGet arts "DataExplorationNotebookLocation" with
      | Except.error e => Except.error e
      | Except.ok (PyVal.str s) => Except.ok (pyRstripSet s nbRstripChars)
      | Except.ok (PyVal.dict _) => Except.error "AttributeError"

/-! ## The shapes of the two notebooks (cell-order step lists) -/

/-- The externally visible kinds of step a notebook cell performs. -/
inductive Step where
  | uploadConfig
  | createAutoMLJob
  | pollStatus
  | describeJob
  | downloadArtifacts
  | listCandidates
  | createModel
  | createEndpointConfig
  | createEndpoint
  | waitEndpoint
  | invokeEndpoint
  | fitEstimator
  | loadLocalModel
  | localPredict
  | plotMetrics
deriving DecidableEq, Repr

/-- The AutoPilot notebook, cell by cell: build the job/input/output configs,
`create_auto_ml_job`, the three polling cells (with an intermediate describe),
`aws s3 cp` of the generated resources, `list_candidates_for_auto_ml_job`,
describe of the best candidate, `create_model`, `create_endpoint_config`,
`create_endpoint`, the `endpoint_in_service` waiter, three `invoke_endpoint`
calls, and the metric plots. -/
def autopilotSteps : List Step :=
  [Step.uploadConfig, Step.createAutoMLJob,
   Step.pollStatus, Step.describeJob, Step.pollStatus, Step.pollStatus,
   Step.downloadArtifacts, Step.listCandidates, Step.describeJob,
   Step.createModel, Step.createEndpointConfig, Step.createEndpoint,
   Step.waitEndpoint,
   Step.invokeEndpoint, Step.invokeEndpoint, Step.invokeEndpoint,
   Step.plotMetrics]

/-- The XGBoost notebook, cell by cell: build the `s3_input` configs, the
blocking `xgb_estimator.fit`, `aws s3 cp` + untar of `model.tar.gz`,
`pickle.load` of the model, `aws s3 cp` of the test set, the local
`xgb_estimator_restored.predict(DMatrix(X_test))`, and the metric plots.
It creates no model, endpoint config, or endpoint, and invokes none. -/
def xgboostSteps : List Step :=
  [Step.uploadConfig, Step.fitEstimator, Step.downloadArtifacts,
   Step.loadLocalModel, Step.downloadArtifacts, Step.localPredict,
   Step.plotMetrics]

/-! ## The endpoint invocations -/

/-- One `sm_runtime.invoke_endpoint` call site: which headers it passes. -/
structure InvokeCall where
  contentType : String
  accept : Option String
deriving DecidableEq, Repr

/-- The three `invoke_endpoint` call sites of the repository, in order: the
single positive review, the single negative review, and the whole test
dataset (the XGBoost notebook contains none). -/
def invokeCalls : List InvokeCall :=
  [⟨"text/csv", some "text/csv"⟩,
   ⟨"text/csv", some "text/csv"⟩,
   ⟨"text/csv", none⟩]

/-- What every call site does with the response:
`response['Body'].read().decode('utf-8').strip()` — the body bytes decoded to
text (`body` is that text) and stripped of surrounding whitespace. -/
def callsiteResult (_c : InvokeCall) (body : String) : String :=
  pyStrip body

/-! ## `load_dataset`

```
def load_dataset(path, sep, header):
    data = pd.read_csv(path, sep=sep, header=header)        -- (or pd.concat of read_csv)
    labels = data.iloc[:,0]
    features = data.drop(data.columns[0], axis=1)
    if header==None:
        new_column_names = list(range(0, len(features.columns)))
        features.columns = new_column_names
    return features, labels
```

The parsing (`pd.read_csv`) is the vendor library; its output — the parsed
table — is the input of the embedding.  A pandas column label is an integer
(`header=None`) or a name (`header=0`). -/

/-- A pandas column label. -/
inductive ColLabel where
  | int (n : Nat)
  | name (s : String)
deriving DecidableEq, Repr

/-- A parsed table: column labels and rows of cells. -/
structure DataFrame (α : Type) where
  cols : List ColLabel
  rows : List (List α)
deriving DecidableEq, Repr

/-- `data.drop(lab, axis=1)`: remove every column whose label is `lab`,
dropping the cells of each row positionally with the labels. -/
def dropColumn {α : Type} (lab : ColLabel) (df : DataFrame α) : DataFrame α :=
  { cols := df.cols.filter (fun c => c != lab),
    rows := df.rows.map
      (fun r => ((r.zip df.cols).filter (fun p => p.2 != lab)).map Prod.fst) }

/-- `features.columns = list(range(0, len(features.columns)))`. -/
def withIntCols {α : Type} (df : DataFrame α) : DataFrame α :=
  { df with cols := (List.range df.cols.length).map ColLabel.int }

/-- `data.iloc[:,0]`: cell 0 of every row (failure when a row is empty). -/
def col0 {α : Type} : List (List α) → Option (List α)
  | [] => some []
  | r :: rs =>
      match r.get? 0, col0 rs with
      | some a, some as => some (a :: as)
      | _, _ => none

/-- `load_dataset` after parsing: `data.columns[0]` fails on a table with no
columns, `data.iloc[:,0]` reads cell 0 of every row, `drop` removes the first
column label, and with `header=None` the feature columns are renamed
`0..len-1`. -/
def load_dataset {α : Type} (header : Option Nat) (data : DataFrame α) :
    Option (DataFrame α × List α) :=
  match data.cols.head? with
  | none => none
  | some c0 =>
      match col0 data.rows with
      | none => none
      | some labels =>
          let features := dropColumn c0 data
          let features := if header = none then withIntCols features else features
          some (features, labels)

/-! ## Thresholding the XGBoost predictions

`preds_test_0_or_1 = np.where(preds_test > 0.5, 1, 0)` — predictions are
modelled as exact rationals (`0.5` is exactly representable and `>` on
non-NaN floats agrees with the rational order). -/

/-- `preds > 0.5`: elementwise comparison against the scalar. -/
def npGtScalar (xs : List ℚ) (t : ℚ) : List Bool :=
  xs.map (fun x => decide (t < x))

/-- `np.where(cond, a, b)` on a boolean vector and two scalars. -/
def npWhere (cond : List Bool) (a b : ℕ) : List ℕ :=
  cond.map (fun c => if c then a else b)

/-- `np.where(preds_test > 0.5, 1, 0)`. -/
def binarizePreds (preds : List ℚ) : List ℕ :=
  npWhere (npGtScalar preds (1 / 2)) 1 0

/-! ## Concrete inputs used by the witnesses -/

/-- A response stream that is in the AnalyzingData phase twice and then
finishes. -/
def streamFinishes (k : Nat) : JobDesc :=
  if k < 2 then ⟨"InProgress", "AnalyzingData"⟩
  else ⟨"Completed", "MaxCandidatesReached"⟩

/-- A response stream whose first description is already in the AnalyzingData
phase and whose every later description reports a failed job. -/
def streamFails (k : Nat) : JobDesc :=
  if k = 0 then ⟨"InProgress", "AnalyzingData"⟩ else ⟨"Failed", "Failed"⟩

/-- The action trace of the AnalyzingData loop on `streamFinishes`. -/
def trFinishes : List Act :=
  [Act.describe, Act.printStat "InProgress" "AnalyzingData", Act.sleep 30,
   Act.describe, Act.printStat "Completed" "MaxCandidatesReached", Act.sleep 30]

/-- A parsed test table: three integer-labelled columns, two rows. -/
def dfW : DataFrame Nat :=
  ⟨[ColLabel.int 0, ColLabel.int 1, ColLabel.int 2],
   [[10, 11, 12], [20, 21, 22]]⟩

/-- The features `load_dataset` returns on `dfW` with `header=None`. -/
def dfWFeatures : DataFrame Nat :=
  ⟨[ColLabel.int 0, ColLabel.int 1], [[11, 12], [21, 22]]⟩

/-! ## Lemmas about the polling loop -/

theorem leadsWith_self : ∀ l : List Char, leadsWith l l = true := by
  intro l
  induction l with
  | nil => rfl
  | cons a as ih => simp [leadsWith, ih]

/-- Every string is a Python substring of itself. -/
theorem pyIn_self (s : String) : pyIn s s = true := by
  unfold pyIn
  cases s.toList with
  | nil => rfl
  | cons b bs => simp [occursIn, leadsWith_self]

/-- Soundness of the loop model: when the loop exits after being given `fuel`
iterations, having started on response `i`, the condition held on every
response it looped on, fails on the last response, and the emitted actions are
exactly one describe call, one status print and one 30-second sleep per
iteration, in order. -/
theorem runPoll_sound (target : String) (stream : Nat → JobDesc) :
    ∀ f i n tr, runPoll target stream f i = some (n, tr) →
      i ≤ n ∧
      (∀ k, i ≤ k → k < n → loopCond target (stream k) = true) ∧
      loopCond target (stream n) = false ∧
      tr = (List.range' i (n - i)).flatMap (iterActs stream) := by
  intro f
  induction f with
  | zero =>
      intro i n tr h
      by_cases hc : loopCond target (stream i) = true
      · simp [runPoll, hc] at h
      · simp [runPoll, hc] at h
        obtain ⟨rfl, rfl⟩ := h
        refine ⟨Nat.le_refl i, ?_, by simpa using hc, by simp⟩
        intro k hik hki; omega
  | succ f ih =>
      intro i n tr h
      by_cases hc : loopCond target (stream i) = true
      · rw [runPoll, if_pos hc] at h
        cases hr : runPoll target stream f (i + 1) with
        | none => rw [hr] at h; exact absurd h (by simp)
        | some r =>
            obtain ⟨n', tr'⟩ := r
            rw [hr] at h
            simp only [Option.some.injEq, Prod.mk.injEq] at h
            obtain ⟨rfl, rfl⟩ := h
            obtain ⟨hin, hall, hexit, htr⟩ := ih (i + 1) n' tr' hr
            refine ⟨by omega, ?_, hexit, ?_⟩
            · intro k h1 h2
              rcases Nat.eq_or_lt_of_le h1 with rfl | hlt
              · exact hc
              · exact hall k (by omega) h2
            · subst htr
              rw [show n' - i = (n' - (i + 1)) + 1 by omega, List.range'_succ,
                List.flatMap_cons]
      · rw [runPoll, if_neg hc] at h
        simp only [Option.some.injEq, Prod.mk.injEq] at h
        obtain ⟨rfl, rfl⟩ := h
        refine ⟨Nat.le_refl i, ?_, by simpa using hc, by simp⟩
        intro k hik hki; omega

/-- When every response keeps the while condition true, the loop is still
running whatever the fuel: no timeout, iteration bound, or cancellation ends
it. -/
theorem runPoll_none_forever (target : String) (stream : Nat → JobDesc)
    (hall : ∀ k, loopCond target (stream k) = true) :
    ∀ f i, runPoll target stream f i = none := by
  intro f
  induction f with
  | zero => intro i; simp [runPoll, hall i]
  | succ f ih => intro i; simp [runPoll, hall i, ih (i + 1)]

/-- When some response makes the while condition fail, enough fuel makes the
loop exit. -/
theorem runPoll_some_of_exit (target : String) (stream : Nat → JobDesc) :
    ∀ f i, loopCond target (stream (i + f)) = false →
      ∃ r, runPoll target stream f i = some r := by
  intro f
  induction f with
  | zero =>
      intro i h
      rw [Nat.add_zero] at h
      exact ⟨(i, []), by simp [runPoll, h]⟩
  | succ f ih =>
      intro i h
      by_cases hc : loopCond target (stream i) = true
      · obtain ⟨⟨n, tr⟩, hr⟩ := ih (i + 1)
          (by rw [show i + 1 + f = i + (f + 1) by omega]; exact h)
        exact ⟨(n, iterActs stream i ++ tr), by simp [runPoll, hc, hr]⟩
      · exact ⟨(i, []), by simp [runPoll, hc]⟩

/-! ## Claim C1 -/

/-- C1, counterexample.  The claim says each polling loop "exits exactly when
the most recently queried job status is no longer 'InProgress' or the most
recently queried secondary status has left the target phase".  False: the
while condition is `job_status in ('InProgress')`, a Python substring test
against the string `'InProgress'` (the parentheses do not make a tuple), so
on the concrete description ⟨"In", "AnalyzingData"⟩ — job status `"In"`,
which is not `'InProgress'` — the condition still holds and the loop keeps
running (still running after 3 iterations of fuel on the constant stream). -/
theorem loopExit_claim_cex :
    (¬ ∀ (target : String) (j : JobDesc),
        loopCond target j = false ↔ (j.status ≠ "InProgress" ∨ j.secStatus ≠ target)) ∧
    runPoll "AnalyzingData" (fun _ => ⟨"In", "AnalyzingData"⟩) 3 0 = none := by
  constructor
  · intro h
    have h2 := (h "AnalyzingData" ⟨"In", "AnalyzingData"⟩).mpr (Or.inl (by decide))
    exact absurd h2 (by decide)
  · rfl

/-- C1 (amended): for each of the three AutoPilot polling loops (`target` is
`"AnalyzingData"`, `"FeatureEngineering"` or `"ModelTuning"`), on every
iteration the loop queries the job description exactly once and then sleeps a
fixed 30 seconds (the trace is exactly one `describe`, one status print and
one `sleep 30` per iteration, in order), and the loop exits exactly when the
most recently queried job status is no longer a substring of `'InProgress'`
or the most recently queried secondary status is no longer a substring of the
target phase — substring, not equality, because the `while` condition's
`in ('...')` operands are parenthesized strings, not tuples. -/
theorem runPoll_iteration_spec (target : String) (stream : Nat → JobDesc)
    (f n : Nat) (tr : List Act)
    (h : runPoll target stream f 0 = some (n, tr)) :
    (∀ k, k < n → pyIn (stream k).status "InProgress" = true ∧
        pyIn (stream k).secStatus target = true) ∧
    (pyIn (stream n).status "InProgress" = false ∨
        pyIn (stream n).secStatus target = false) ∧
    tr = (List.range n).flatMap (iterActs stream) := by
  obtain ⟨-, hall, hexit, htr⟩ := runPoll_sound target stream f 0 n tr h
  refine ⟨?_, ?_, ?_⟩
  · intro k hk
    have := hall k (Nat.zero_le k) hk
    rw [loopCond, Bool.and_eq_true] at this
    exact this
  · rw [loopCond] at hexit
    cases h1 : pyIn (stream n).status "InProgress" <;>
      cases h2 : pyIn (stream n).secStatus target <;> simp_all
  · rw [htr, List.range_eq_range', Nat.sub_zero]

/-- Witness for C1: on the stream `streamFinishes` (two in-phase responses,
then a completed one) the AnalyzingData loop exits after 2 iterations with
the trace `trFinishes` — one describe, one print and one 30-second sleep per
iteration. -/
theorem runPoll_iteration_witness :
    runPoll "AnalyzingData" streamFinishes 5 0 = some (2, trFinishes) ∧
    trFinishes = (List.range 2).flatMap (iterActs streamFinishes) :=
  ⟨rfl,
    (runPoll_iteration_spec "AnalyzingData" streamFinishes 5 2 trFinishes rfl).2.2⟩

/-! ## Claim C2 -/

/-- C2, counterexample.  The claim says each loop "terminates if and only if
the remote service eventually returns a description whose job status differs
from 'InProgress' or whose secondary status differs from the loop's target
phase".  False in the "if" direction: on the constant stream
⟨"Progress", "AnalyzingData"⟩ every job status differs from `'InProgress'`,
yet `"Progress" in 'InProgress'` is a true substring test, so the while
condition never fails and the loop never terminates. -/
theorem termination_claim_cex :
    ¬ (∀ stream : Nat → JobDesc,
        (∃ n, (stream n).status ≠ "InProgress" ∨
            (stream n).secStatus ≠ "AnalyzingData") →
        ∃ f r, runPoll "AnalyzingData" stream f 0 = some r) := by
  intro h
  obtain ⟨f, r, hr⟩ := h (fun _ => ⟨"Progress", "AnalyzingData"⟩)
    ⟨0, Or.inl (by decide)⟩
  rw [runPoll_none_forever _ _ (fun k => by decide) f 0] at hr
  exact Option.noConfusion hr

/-- C2 (amended): no polling loop has a local timeout, maximum iteration
count, or cancellation: the loop terminates if and only if the remote service
eventually returns a description whose job status is not a substring of
`'InProgress'` or whose secondary status is not a substring of the loop's
target phase (the `while` condition is a Python substring test); and on every
response sequence that forever reports job status `'InProgress'` with the
target secondary status, the loop runs forever (it is still running after
`f` iterations, for every `f`). -/
theorem runPoll_termination (target : String) (stream : Nat → JobDesc) :
    ((∃ f r, runPoll target stream f 0 = some r) ↔
      (∃ n, ¬ (pyIn (stream n).status "InProgress" = true ∧
          pyIn (stream n).secStatus target = true))) ∧
    ((∀ k, stream k = ⟨"InProgress", target⟩) →
      ∀ f, runPoll target stream f 0 = none) := by
  constructor
  · constructor
    · rintro ⟨f, ⟨n, tr⟩, hr⟩
      refine ⟨n, ?_⟩
      have hexit := (runPoll_sound target stream f 0 n tr hr).2.2.1
      rw [loopCond] at hexit
      intro hand
      rw [hand.1, hand.2] at hexit
      exact Bool.noConfusion hexit
    · rintro ⟨n, hn⟩
      have hfalse : loopCond target (stream n) = false := by
        rw [loopCond]
        cases h1 : pyIn (stream n).status "InProgress" <;>
          cases h2 : pyIn (stream n).secStatus target <;> simp_all
      obtain ⟨r, hr⟩ := runPoll_some_of_exit target stream n 0
        (by rw [Nat.zero_add]; exact hfalse)
      exact ⟨n, r, hr⟩
  · intro hall f
    apply runPoll_none_forever
    intro k
    rw [hall k, loopCond]
    simp [pyIn_self]

/-- Witness for C2: on the stream that constantly reports
⟨"InProgress", "AnalyzingData"⟩ the AnalyzingData loop is still running after
6 iterations of fuel. -/
theorem runPoll_termination_witness :
    runPoll "AnalyzingData" (fun _ => ⟨"InProgress", "AnalyzingData"⟩) 6 0 = none :=
  (runPoll_termination "AnalyzingData" (fun _ => ⟨"InProgress", "AnalyzingData"⟩)).2
    (fun _ => rfl) 6

/-! ## Claim C3 -/

/-- C3 (confirmed): when the `describe_auto_ml_job` response does not contain
the key `'AutoMLJobArtifacts'`, the artifact-download step raises
`KeyError('AutoMLJobArtifacts')` — modelled as `Except.error` with the missing
key — and since the cell wraps the lookup in no handler, that error is the
step's result: it propagates to the caller and no fallback value is
produced. -/
theorem generated_resources_key_error (es : List (String × PyVal))
    (h : ∀ p ∈ es, p.1 ≠ "AutoMLJobArtifacts") :
    generated_resources (PyVal.dict es) = Except.error "AutoMLJobArtifacts" := by
  have hf : es.find? (fun p => p.1 == "AutoMLJobArtifacts") = none := by
    rw [List.find?_eq_none]
    intro p hp
    simpa using h p hp
  simp [generated_resources, pyGet, hf]

/-- Witness for C3: a describe response carrying only a status key. -/
theorem generated_resources_key_error_witness :
    generated_resources (PyVal.dict [("AutoMLJobStatus", PyVal.str "Completed")]) =
      Except.error "AutoMLJobArtifacts" :=
  generated_resources_key_error [("AutoMLJobStatus", PyVal.str "Completed")]
    (by intro p hp; simp at hp; rw [hp]; decide)

/-! ## Claim C4 -/

/-- On an initial description with status `Stopped` or `Failed`, a polling
cell's whole output is: the initial describe, the pre-guard prints (when the
cell has them), and the raw job description. -/
theorem pollCell_stopped_eq (printPre : Bool) (target msg : String)
    (stream : Nat → JobDesc) (fuel : Nat)
    (h : (stream 0).status = "Stopped" ∨ (stream 0).status = "Failed") :
    pollCell printPre target msg stream fuel =
      some (Act.describe ::
        (cellPre printPre (stream 0) ++ [Act.printJob (stream 0)])) := by
  have hg : (stream 0).status ∈ guardLiterals := by
    rcases h with h | h <;> simp [guardLiterals, h]
  rw [pollCell, if_pos hg]

/-- C4, counterexample.  The claim says that a polling cell whose first job
description has status `'Stopped'` or `'Failed'` "merely prints the status
strings and the raw job description".  False for the AnalyzingData cell: it
has no `print(job_status)` / `print(job_sec_status)` lines before its guard,
so on such a run its entire output is the raw job description alone — the
concrete run below prints no status string at all. -/
theorem analyzing_cell_prints_cex :
    analyzingCell (fun _ => ⟨"Stopped", "Stopped"⟩) 5 =
      some [Act.sleep 3, Act.describe, Act.printJob ⟨"Stopped", "Stopped"⟩] ∧
    Act.printStr "Stopped" ∉
      [Act.sleep 3, Act.describe, Act.printJob (⟨"Stopped", "Stopped"⟩ : JobDesc)] :=
  ⟨rfl, by decide⟩

/-- C4 (amended): when the first job description obtained by a polling cell
has job status `'Stopped'` or `'Failed'`, the cell enters no loop iteration,
issues no further describe calls (exactly the one initial describe appears),
sleeps no 30-second polling interval, prints no completion message, and takes
no corrective action: it merely prints diagnostic output — the raw job
description, preceded by the two status strings in the FeatureEngineering and
ModelTuning cells, while the AnalyzingData cell prints the raw job
description alone. -/
theorem pollingCells_stopped (stream : Nat → JobDesc) (fuel : Nat)
    (h : (stream 0).status = "Stopped" ∨ (stream 0).status = "Failed") :
    analyzingCell stream fuel =
      some [Act.sleep 3, Act.describe, Act.printJob (stream 0)] ∧
    featureCell stream fuel =
      some [Act.describe, Act.printStr (stream 0).status,
        Act.printStr (stream 0).secStatus, Act.printJob (stream 0)] ∧
    tuningCell stream fuel =
      some [Act.describe, Act.printStr (stream 0).status,
        Act.printStr (stream 0).secStatus, Act.printJob (stream 0)] := by
  refine ⟨?_, ?_, ?_⟩
  · rw [analyzingCell, pollCell_stopped_eq _ _ _ _ _ h]; rfl
  · rw [featureCell, pollCell_stopped_eq _ _ _ _ _ h]; rfl
  · rw [tuningCell, pollCell_stopped_eq _ _ _ _ _ h]; rfl

/-- Witness for C4: the three cells on a stream whose first description is
already `Failed`. -/
theorem pollingCells_stopped_witness :
    analyzingCell (fun _ => ⟨"Failed", "Failed"⟩) 4 =
      some [Act.sleep 3, Act.describe, Act.printJob ⟨"Failed", "Failed"⟩] ∧
    featureCell (fun _ => ⟨"Failed", "Failed"⟩) 4 =
      some [Act.describe, Act.printStr "Failed", Act.printStr "Failed",
        Act.printJob ⟨"Failed", "Failed"⟩] ∧
    tuningCell (fun _ => ⟨"Failed", "Failed"⟩) 4 =
      some [Act.describe, Act.printStr "Failed", Act.printStr "Failed",
        Act.printJob ⟨"Failed", "Failed"⟩] :=
  pollingCells_stopped (fun _ => ⟨"Failed", "Failed"⟩) 4 (Or.inr rfl)

/-! ## Claim C10 -/

/-- A polling cell that runs to completion emits its completion message
exactly when the initial status passes the guard
`not in ('Stopped', 'Failed')`. -/
theorem pollCell_msg_mem (printPre : Bool) (target msg : String)
    (stream : Nat → JobDesc) (fuel : Nat) (acts : List Act)
    (h : pollCell printPre target msg stream fuel = some acts) :
    (Act.printMsg msg ∈ acts ↔ (stream 0).status ∉ guardLiterals) := by
  rw [pollCell] at h
  by_cases hg : (stream 0).status ∈ guardLiterals
  · rw [if_pos hg] at h
    obtain rfl := Option.some.inj h
    simp only [hg, not_true_eq_false, iff_false]
    cases printPre <;> simp [cellPre]
  · rw [if_neg hg] at h
    cases hr : runPoll target stream fuel 0 with
    | none => rw [hr] at h; exact absurd h (by simp)
    | some r =>
        obtain ⟨n, tr⟩ := r
        rw [hr] at h
        obtain rfl := Option.some.inj h
        simp only [hg, not_false_eq_true, iff_true]
        simp

/-- C10 (confirmed): on every run in which the three polling cells complete,
each cell — separately — prints its completion message
(`'Data analysis complete'`, `'Feature engineering complete'`,
`'Model tuning complete'`) exactly when the first job description it obtains
has a status other than `'Stopped'` and `'Failed'` — in particular even when
the last status the loop observes is `'Failed'` (the witness shows such a
run) — and never when the initial status is `'Stopped'` or `'Failed'` (each
biconditional's forward direction, contraposed). -/
theorem pollingCells_message (stream : Nat → JobDesc) (fuel : Nat)
    (a b c : List Act)
    (ha : analyzingCell stream fuel = some a)
    (hb : featureCell stream fuel = some b)
    (hc : tuningCell stream fuel = some c) :
    (Act.printMsg "Data analysis complete" ∈ a ↔
      ((stream 0).status ≠ "Stopped" ∧ (stream 0).status ≠ "Failed")) ∧
    (Act.printMsg "Feature engineering complete" ∈ b ↔
      ((stream 0).status ≠ "Stopped" ∧ (stream 0).status ≠ "Failed")) ∧
    (Act.printMsg "Model tuning complete" ∈ c ↔
      ((stream 0).status ≠ "Stopped" ∧ (stream 0).status ≠ "Failed")) := by
  rw [analyzingCell, Option.map_eq_some'] at ha
  obtain ⟨a0, ha0, rfl⟩ := ha
  rw [featureCell] at hb
  rw [tuningCell] at hc
  have h1 := pollCell_msg_mem false "AnalyzingData" "Data analysis complete"
    stream fuel a0 ha0
  have h2 := pollCell_msg_mem true "FeatureEngineering"
    "Feature engineering complete" stream fuel b hb
  have h3 := pollCell_msg_mem true "ModelTuning" "Model tuning complete"
    stream fuel c hc
  have hng : (stream 0).status ∉ guardLiterals ↔
      ((stream 0).status ≠ "Stopped" ∧ (stream 0).status ≠ "Failed") := by
    simp [guardLiterals, not_or]
  refine ⟨?_, h2.trans hng, h3.trans hng⟩
  rw [List.mem_cons]
  constructor
  · rintro (hm | hm)
    · exact absurd hm (by simp)
    · exact hng.mp (h1.mp hm)
  · intro hr
    exact Or.inr (h1.mpr (hng.mpr hr))

/-- Witness for C10.  On `streamFails` (first description in the
AnalyzingData phase, every later one `Failed`) each cell completes and prints
its message — the AnalyzingData loop's last observed status is `'Failed'`
and the message is printed nevertheless; and on the constantly-`Stopped`
stream the AnalyzingData cell completes without printing its message. -/
theorem pollingCells_message_witness :
    Act.printMsg "Data analysis complete" ∈
      [Act.sleep 3, Act.describe, Act.describe, Act.printStat "Failed" "Failed",
       Act.sleep 30, Act.printMsg "Data analysis complete",
       Act.printJob ⟨"Failed", "Failed"⟩] ∧
    Act.printMsg "Feature engineering complete" ∈
      [Act.describe, Act.printStr "InProgress", Act.printStr "AnalyzingData",
       Act.printMsg "Feature engineering complete",
       Act.printJob ⟨"InProgress", "AnalyzingData"⟩] ∧
    Act.printMsg "Model tuning complete" ∈
      [Act.describe, Act.printStr "InProgress", Act.printStr "AnalyzingData",
       Act.printMsg "Model tuning complete",
       Act.printJob ⟨"InProgress", "AnalyzingData"⟩] ∧
    Act.printMsg "Data analysis complete" ∉
      [Act.sleep 3, Act.describe, Act.printJob (⟨"Stopped", "Stopped"⟩ : JobDesc)] :=
  ⟨(pollingCells_message streamFails 3 _ _ _ rfl rfl rfl).1.mpr
      ⟨by decide, by decide⟩,
    (pollingCells_message streamFails 3 _ _ _ rfl rfl rfl).2.1.mpr
      ⟨by decide, by decide⟩,
    (pollingCells_message streamFails 3 _ _ _ rfl rfl rfl).2.2.mpr
      ⟨by decide, by decide⟩,
    fun hm =>
      ((pollingCells_message (fun _ => ⟨"Stopped", "Stopped"⟩) 3
        [Act.sleep 3, Act.describe, Act.printJob ⟨"Stopped", "Stopped"⟩]
        [Act.describe, Act.printStr "Stopped", Act.printStr "Stopped",
          Act.printJob ⟨"Stopped", "Stopped"⟩]
        [Act.describe, Act.printStr "Stopped", Act.printStr "Stopped",
          Act.printJob ⟨"Stopped", "Stopped"⟩]
        rfl rfl rfl).1.mp hm).1 rfl⟩

/-! ## Claim C5 -/

/-- C5, counterexample.  The claim says every notebook deploys a model
container behind a hosted endpoint and obtains its predictions by invoking
that endpoint.  False for the XGBoost notebook: its step list contains no
`create_endpoint` and no `invoke_endpoint` — it loads the downloaded model
archive with `pickle` and computes its predictions locally with
`xgb_estimator_restored.predict(DMatrix(X_test))`. -/
theorem xgboost_no_endpoint_cex :
    Step.createEndpoint ∉ xgboostSteps ∧
    Step.invokeEndpoint ∉ xgboostSteps ∧
    Step.loadLocalModel ∈ xgboostSteps ∧
    Step.localPredict ∈ xgboostSteps := by decide

/-- C5 (amended): the AutoPilot notebook performs, in this order, (a) upload
configuration, (b) poll job status, (c) download generated artifacts,
(d) deploy a model container behind a hosted endpoint and (e) send requests
to that endpoint to collect predictions; the XGBoost notebook performs
(a)–(c) — upload configuration, blocking training, artifact download — but
creates no endpoint and invokes none: it loads the model locally and
computes its predictions locally. -/
theorem notebook_steps_spec :
    (autopilotSteps.indexOf Step.uploadConfig <
        autopilotSteps.indexOf Step.pollStatus ∧
      autopilotSteps.indexOf Step.pollStatus <
        autopilotSteps.indexOf Step.downloadArtifacts ∧
      autopilotSteps.indexOf Step.downloadArtifacts <
        autopilotSteps.indexOf Step.createEndpoint ∧
      autopilotSteps.indexOf Step.createEndpoint <
        autopilotSteps.indexOf Step.invokeEndpoint ∧
      Step.createEndpoint ∈ autopilotSteps ∧
      Step.invokeEndpoint ∈ autopilotSteps) ∧
    (Step.uploadConfig ∈ xgboostSteps ∧
      Step.fitEstimator ∈ xgboostSteps ∧
      Step.downloadArtifacts ∈ xgboostSteps ∧
      Step.localPredict ∈ xgboostSteps ∧
      Step.createEndpoint ∉ xgboostSteps ∧
      Step.invokeEndpoint ∉ xgboostSteps) := by decide

/-! ## Claim C6 -/

/-- C6, counterexample.  The claim says every status value the notebooks'
control flow compares against is a member of the spec's enum
queued/analyzing/feature-engineering/tuning/failed/stopped/completed.
False: every `while` condition compares the job status against
`'InProgress'`, and no word of the spec's enum denotes that status — the
enum has no in-progress/running member. -/
theorem status_enum_cex :
    "InProgress" ∈ allStatusLiterals ∧
    specWordFor "InProgress" ∉ specStatusEnum := by decide

/-- C6 (amended): every job status or secondary-status literal that the
notebooks' control flow compares the service's status strings against —
`'Stopped'`, `'Failed'`, `'AnalyzingData'`, `'FeatureEngineering'`,
`'ModelTuning'` — denotes a member of the spec's enum, with the sole
exception of the primary status `'InProgress'`, which the spec's enum does
not list. -/
theorem status_literals_enum (s : String) (hs : s ∈ allStatusLiterals) :
    s = "InProgress" ∨ specWordFor s ∈ specStatusEnum := by
  have H : ∀ t ∈ allStatusLiterals,
      t = "InProgress" ∨ specWordFor t ∈ specStatusEnum := by decide
  exact H s hs

/-- Witness for C6: the guard literal `'Stopped'`. -/
theorem status_literals_enum_witness :
    "Stopped" ∈ allStatusLiterals ∧
    ("Stopped" = "InProgress" ∨ specWordFor "Stopped" ∈ specStatusEnum) :=
  ⟨by decide, status_literals_enum "Stopped" (by decide)⟩

/-! ## Claim C7 -/

/-- `str.strip()` removes exactly a whitespace margin at each end: the
original character list is the stripped list surrounded by two all-whitespace
segments. -/
theorem pyStrip_decomp (body : String) :
    ∃ pre post : List Char,
      body.toList = pre ++ ((pyStrip body).toList ++ post) ∧
      (∀ ch ∈ pre, ch.isWhitespace = true) ∧
      (∀ ch ∈ post, ch.isWhitespace = true) := by
  refine ⟨body.toList.takeWhile Char.isWhitespace,
    ((body.toList.dropWhile Char.isWhitespace).reverse.takeWhile
      Char.isWhitespace).reverse, ?_, ?_, ?_⟩
  · have h2 := List.takeWhile_append_dropWhile Char.isWhitespace
      (body.toList.dropWhile Char.isWhitespace).reverse
    have h3 := congrArg List.reverse h2
    rw [List.reverse_append, List.reverse_reverse] at h3
    conv_lhs => rw [← List.takeWhile_append_dropWhile Char.isWhitespace
      body.toList, ← h3]
    rfl
  · intro ch hch
    exact List.mem_takeWhile_imp hch
  · intro ch hch
    rw [List.mem_reverse] at hch
    exact List.mem_takeWhile_imp hch

/-- C7 (confirmed): every `invoke_endpoint` call site in the repository (the
three calls of the AutoPilot notebook; the XGBoost notebook has none) passes
`ContentType='text/csv'`, and the prediction value the call site returns is
`response['Body'].read().decode('utf-8').strip()`: the body text — the UTF-8
decode of the body bytes — with its surrounding whitespace stripped, so the
body text splits as whitespace ++ result ++ whitespace. -/
theorem invoke_calls_spec (c : InvokeCall) (hc : c ∈ invokeCalls)
    (body : String) :
    c.contentType = "text/csv" ∧
    callsiteResult c body = pyStrip body ∧
    ∃ pre post : List Char,
      body.toList = pre ++ ((callsiteResult c body).toList ++ post) ∧
      (∀ ch ∈ pre, ch.isWhitespace = true) ∧
      (∀ ch ∈ post, ch.isWhitespace = true) := by
  refine ⟨?_, rfl, pyStrip_decomp body⟩
  simp only [invokeCalls, List.mem_cons, List.not_mem_nil, or_false] at hc
  rcases hc with rfl | rfl | rfl <;> rfl

/-- Witness for C7: the first call site on the body text `" 1.0\n"`. -/
theorem invoke_calls_spec_witness :
    (⟨"text/csv", some "text/csv"⟩ : InvokeCall) ∈ invokeCalls ∧
    ((⟨"text/csv", some "text/csv"⟩ : InvokeCall).contentType = "text/csv" ∧
      callsiteResult ⟨"text/csv", some "text/csv"⟩ " 1.0\n" = pyStrip " 1.0\n" ∧
      ∃ pre post : List Char,
        (" 1.0\n" : String).toList = pre ++
          ((callsiteResult ⟨"text/csv", some "text/csv"⟩ " 1.0\n").toList ++ post) ∧
        (∀ ch ∈ pre, ch.isWhitespace = true) ∧
        (∀ ch ∈ post, ch.isWhitespace = true)) :=
  ⟨by decide, invoke_calls_spec ⟨"text/csv", some "text/csv"⟩ (by decide) " 1.0\n"⟩

/-! ## Claim C8 -/

/-- `col0` is the per-row first cell: taking 1 cell of every row of the table
gives the singletons of the returned labels. -/
theorem col0_take {α : Type} :
    ∀ (rows : List (List α)) (ls : List α), col0 rows = some ls →
      rows.map (fun r => r.take 1) = ls.map (fun a => [a]) := by
  intro rows
  induction rows with
  | nil =>
      intro ls h
      obtain rfl := Option.some.inj h
      rfl
  | cons r rs ih =>
      intro ls h
      rw [col0] at h
      cases hb : r.get? 0 with
      | none =>
          cases hms : col0 rs with
          | none => rw [hb, hms] at h; exact absurd h (by simp)
          | some bs => rw [hb, hms] at h; exact absurd h (by simp)
      | some a =>
          cases hms : col0 rs with
          | none => rw [hb, hms] at h; exact absurd h (by simp)
          | some bs =>
              rw [hb, hms] at h
              obtain rfl := Option.some.inj h
              have hr : r.take 1 = [a] := by
                cases r with
                | nil => simp at hb
                | cons x xs =>
                    simp only [List.get?] at hb
                    obtain rfl := Option.some.inj hb
                    rfl
              simp only [List.map_cons, hr, ih bs hms]

/-- Dropping the first column by its label drops exactly cell 0 of a row when
that label appears nowhere else. -/
theorem zip_filter_drop {α : Type} (c0 : ColLabel) (rest : List ColLabel)
    (hnotin : c0 ∉ rest) (r : List α) (hr : r.length = rest.length + 1) :
    ((r.zip (c0 :: rest)).filter (fun p => p.2 != c0)).map Prod.fst = r.drop 1 := by
  cases r with
  | nil => simp at hr
  | cons x xs =>
      have hlen : xs.length = rest.length := by simpa using hr
      have hfilter : (xs.zip rest).filter (fun p => p.2 != c0) = xs.zip rest := by
        rw [List.filter_eq_self]
        rintro ⟨a, b⟩ hp
        have hb := (List.of_mem_zip hp).2
        simp only [bne_iff_ne, ne_eq, decide_eq_true_eq]
        intro hEq
        rw [hEq] at hb
        exact hnotin hb
      rw [List.zip_cons_cons, List.filter_cons_of_neg (by simp), hfilter,
        List.map_fst_zip xs rest (le_of_eq hlen)]
      rfl

/-- Dropping the first column label keeps the remaining labels when the first
label appears nowhere else. -/
theorem filter_cols_drop (c0 : ColLabel) (rest : List ColLabel)
    (hnotin : c0 ∉ rest) :
    (c0 :: rest).filter (fun c => c != c0) = rest := by
  rw [List.filter_cons_of_neg (by simp), List.filter_eq_self]
  intro a ha
  simp only [bne_iff_ne, ne_eq, decide_eq_true_eq]
  intro hEq
  rw [hEq] at ha
  exact hnotin ha

/-- C8 (confirmed): for every table that `load_dataset` successfully parses
(in either notebook — both define the same post-parse logic), the returned
labels equal column 0 of the parsed table, the returned features equal the
table with column 0 removed — one fewer column, the same rows in the same
order with their first cell dropped — and when the `header` argument is
`None` the features' column names are exactly the consecutive integers `0`
to number-of-feature-columns minus 1.  The hypotheses state that the input
is a parsed table: rectangular, with pairwise distinct column labels. -/
theorem load_dataset_spec {α : Type} (header : Option Nat) (df : DataFrame α)
    (f : DataFrame α) (labels : List α)
    (hnd : df.cols.Nodup)
    (hrect : ∀ r ∈ df.rows, r.length = df.cols.length)
    (h : load_dataset header df = some (f, labels)) :
    df.rows.map (fun r => r.take 1) = labels.map (fun a => [a]) ∧
    f.rows = df.rows.map (fun r => r.drop 1) ∧
    f.cols.length + 1 = df.cols.length ∧
    f.cols = (if header = none
        then (List.range (df.cols.length - 1)).map ColLabel.int
        else df.cols.drop 1) := by
  obtain ⟨cols, rows⟩ := df
  dsimp only at hnd hrect h ⊢
  cases cols with
  | nil =>
      rw [load_dataset] at h
      exact absurd h (by simp)
  | cons c0 rest =>
      have hnotin : c0 ∉ rest := (List.nodup_cons.mp hnd).1
      simp only [load_dataset, List.head?_cons] at h
      cases hc : col0 rows with
      | none => rw [hc] at h; exact absurd h (by simp)
      | some ls =>
          rw [hc] at h
          simp only [Option.some.injEq, Prod.mk.injEq] at h
          obtain ⟨hf, hl⟩ := h
          subst hl
          have hdrop_rows :
              (dropColumn c0 ⟨c0 :: rest, rows⟩ : DataFrame α).rows =
                rows.map (fun r => r.drop 1) := by
            dsimp only [dropColumn]
            refine List.map_congr_left ?_
            intro r hrm
            exact zip_filter_drop c0 rest hnotin r (by simpa using hrect r hrm)
          have hdrop_cols :
              (dropColumn c0 ⟨c0 :: rest, rows⟩ : DataFrame α).cols = rest := by
            dsimp only [dropColumn]
            exact filter_cols_drop c0 rest hnotin
          by_cases hh : header = none
          · subst hh
            rw [if_pos rfl] at hf
            subst hf
            refine ⟨col0_take rows ls hc, ?_, ?_, ?_⟩
            · dsimp only [withIntCols]
              exact hdrop_rows
            · dsimp only [withIntCols]
              rw [List.length_map, List.length_range, hdrop_cols]
              simp
            · rw [if_pos rfl]
              dsimp only [withIntCols]
              rw [hdrop_cols]
              simp
          · rw [if_neg hh] at hf
            subst hf
            refine ⟨col0_take rows ls hc, hdrop_rows, ?_, ?_⟩
            · rw [hdrop_cols]
              rfl
            · rw [if_neg hh, hdrop_cols]
              rfl

/-- Witness for C8: `load_dataset` with `header=None` on the 2×3 table
`dfW`. -/
theorem load_dataset_spec_witness :
    dfW.rows.map (fun r => r.take 1) = ([10, 20] : List Nat).map (fun a => [a]) ∧
    dfWFeatures.rows = dfW.rows.map (fun r => r.drop 1) ∧
    dfWFeatures.cols.length + 1 = dfW.cols.length ∧
    dfWFeatures.cols = (if (none : Option Nat) = none
        then (List.range (dfW.cols.length - 1)).map ColLabel.int
        else dfW.cols.drop 1) :=
  load_dataset_spec none dfW dfWFeatures [10, 20] (by decide) (by decide)
    (by decide)

/-! ## Claim C9 -/

/-- C9 (confirmed): binarising the predictions is elementwise — the output
has the same length as the input, entry `i` is `1` exactly when prediction
`i` exceeds `0.5` and `0` otherwise, and a prediction exactly equal to `0.5`
is mapped to class `0`. -/
theorem binarize_preds_spec (preds : List ℚ) (i : Nat) (p : ℚ)
    (h : preds.get? i = some p) :
    (binarizePreds preds).length = preds.length ∧
    (binarizePreds preds).get? i = some (if 1 / 2 < p then 1 else 0) ∧
    binarizePreds [1 / 2] = [0] := by
  have hmap : binarizePreds preds =
      preds.map (fun x => if 1 / 2 < x then 1 else 0) := by
    simp [binarizePreds, npWhere, npGtScalar, List.map_map, Function.comp_def]
  refine ⟨?_, ?_, ?_⟩
  · rw [hmap, List.length_map]
  · rw [hmap, List.get?_map, h]
    rfl
  · norm_num [binarizePreds, npWhere, npGtScalar]

/-- Witness for C9: predictions `[3/5, 1/2]`, index 1. -/
theorem binarize_preds_witness :
    ([3 / 5, 1 / 2] : List ℚ).get? 1 = some (1 / 2) ∧
    ((binarizePreds [3 / 5, 1 / 2]).length = ([3 / 5, 1 / 2] : List ℚ).length ∧
      (binarizePreds [3 / 5, 1 / 2]).get? 1 =
        some (if (1 : ℚ) / 2 < 1 / 2 then 1 else 0) ∧
      binarizePreds [1 / 2] = [0]) :=
  ⟨rfl, binarize_preds_spec [3 / 5, 1 / 2] 1 (1 / 2) rfl⟩

end Workshop
